import Mathlib

/-!
Verification of the LinkedIn-Helper outreach core.

Shallow embedding of the persistence layer (src/db.py), the relevant slices of
the browser bot (src/linkedin_bot.py) and the connect/message orchestration
workflows (src/main.py).  SQLite rows become Lean structures, `datetime('now')`
becomes an explicit `now : Nat` argument, and the external page interactions
(navigation, clicking, state detection) are abstracted as inputs: the bot's
per-profile outcome is the status string that `send_connection_request` /
`send_followup_message` (or their dry-run variants) return to the main loop,
or an uncaught exception message.
-/

set_option maxRecDepth 8192

namespace LinkedinHelper

/-! Constants from src/config.py. -/

def STATUS_PENDING : String := "pending"

def STATUS_REQUEST_SENT : String := "request_sent"

def STATUS_CONNECTED : String := "connected"

def STATUS_MESSAGED : String := "messaged"

def STATUS_SKIPPED : String := "skipped"

def STATUS_ERROR : String := "error"

def DAILY_CONNECTION_CAP : Nat := 20

def DAILY_MESSAGE_CAP : Nat := 50

/-! Counter-type constants from src/db.py. -/

def COUNTER_CONNECTIONS : String := "connections_sent"

def COUNTER_MESSAGES : String := "messages_sent"

/-- One row of the `profiles` table (src/db.py, `_create_tables`).  The
AUTOINCREMENT `id` column is represented by list position (rows are only ever
appended, and every query in db.py orders by `id`). Timestamps are abstract
`Nat` instants. -/
structure Row where
  url : String
  name : Option String
  status : String
  error_msg : Option String
  created_at : Nat
  updated_at : Nat
deriving DecidableEq, Repr

/-- One row of the `daily_counters` table (src/db.py, `_create_tables`). -/
structure CounterRow where
  date : String
  connections_sent : Nat
  messages_sent : Nat
deriving DecidableEq, Repr

/-- The whole database state seen by one run: the `profiles` table plus the
`daily_counters` table. -/
structure RunState where
  store : List Row
  counters : List CounterRow
deriving DecidableEq, Repr

/-! The profiles table: src/db.py. -/

/-- The row INSERTed by `Database.import_urls`: `INSERT INTO profiles (url,
status) VALUES (?, 'pending')`; the other columns take their declared
defaults. -/
def newRow (u : String) (now : Nat) : Row :=
  ⟨u, none, STATUS_PENDING, none, now, now⟩

/-- Whether a row with this url already exists (the UNIQUE constraint on
`profiles.url` that makes the INSERT in `import_urls` raise
`IntegrityError`). -/
def urlExists : List Row → String → Bool
  | [], _ => false
  | r :: rest, u => if r.url = u then true else urlExists rest u

/-- Result dict of `Database.import_urls`, together with the store it leaves
behind. -/
structure ImportResult where
  store : List Row
  imported : Nat
  skipped : Nat
  total : Nat
deriving DecidableEq, Repr

/-- The loop body of `Database.import_urls` (src/db.py lines 119-129): try to
INSERT each url in order; a duplicate raises `IntegrityError` and is counted
as skipped.  Returns (store, imported, skipped). -/
def importLoop : List Row → List String → Nat → List Row × Nat × Nat
  | store, [], _ => (store, 0, 0)
  | store, u :: rest, now =>
    if urlExists store u then
      let p := importLoop store rest now
      (p.1, p.2.1, p.2.2 + 1)
    else
      let p := importLoop (store ++ [newRow u now]) rest now
      (p.1, p.2.1 + 1, p.2.2)

/-- `Database.import_urls` (src/db.py lines 104-132): bulk-insert, skipping
duplicates; `total` is the length of the input list. -/
def import_urls (store : List Row) (urls : List String) (now : Nat) : ImportResult :=
  let p := importLoop store urls now
  ⟨p.1, p.2.1, p.2.2, urls.length⟩

/-- Python truthiness of the optional `name` / `error_msg` arguments of
`Database.update_status`: `None` and the empty string are falsy. -/
def truthy : Option String → Bool
  | none => false
  | some s => !(s.isEmpty)

/-- The four UPDATE branches of `Database.update_status` (src/db.py lines
222-244), applied to one matching row: which columns are SET depends on the
truthiness of `name` and `error_msg`; `status` and `updated_at` are always
set. -/
def applyUpdate (r : Row) (status : String) (name error_msg : Option String) (now : Nat) : Row :=
  if truthy name && truthy error_msg then
    { r with status := status, name := name, error_msg := error_msg, updated_at := now }
  else if truthy name then
    { r with status := status, name := name, updated_at := now }
  else if truthy error_msg then
    { r with status := status, error_msg := error_msg, updated_at := now }
  else
    { r with status := status, updated_at := now }

/-- `Database.update_status` (src/db.py lines 206-245): an UPDATE whose WHERE
clause matches on `url`.  The Python function raises nothing: when the url is
absent the UPDATE simply matches zero rows. -/
def update_status (store : List Row) (url status : String) (name error_msg : Option String)
    (now : Nat) : List Row :=
  store.map fun r => if r.url = url then applyUpdate r status name error_msg now else r

inductive DbError where
  | notFound
deriving DecidableEq, Repr

/-- Section 4.1 of the design document describes `updateStatus` as failing
with `NotFoundError` when the url is unknown.  This definition follows the
document's words, to be compared with `update_status` above, which is
translated from db.py and has no failure path. -/
def updateStatusSpec (store : List Row) (url status : String) (name error_msg : Option String)
    (now : Nat) : Except DbError (List Row) :=
  if urlExists store url then
    Except.ok (update_status store url status name error_msg now)
  else
    Except.error DbError.notFound

/-- Effect of `Database.reset_errors` on one row: `UPDATE profiles SET status
= 'pending', error_msg = NULL, updated_at = datetime('now') WHERE status =
'error'`. -/
def resetRow (r : Row) (now : Nat) : Row :=
  if r.status = STATUS_ERROR then
    { r with status := STATUS_PENDING, error_msg := none, updated_at := now }
  else r

/-- Number of rows the reset UPDATE matches (sqlite `cursor.rowcount`). -/
def countErrors : List Row → Nat
  | [] => 0
  | r :: rest => (if r.status = STATUS_ERROR then 1 else 0) + countErrors rest

/-- `Database.reset_errors` (src/db.py lines 247-260): returns the mutated
store and the affected row count. -/
def reset_errors (store : List Row) (now : Nat) : List Row × Nat :=
  (store.map (fun r => resetRow r now), countErrors store)

/-- The url list produced by `Database.get_profiles_by_status` before the
LIMIT clause (SELECT ... WHERE status = ? ORDER BY id); the loops in main.py
use only the `url` field of each returned dict. -/
def statusUrls : List Row → String → List String
  | [], _ => []
  | r :: rest, s => if r.status = s then r.url :: statusUrls rest s else statusUrls rest s

/-- `Database.get_profiles_by_status` (src/db.py lines 156-175): a LIMIT
clause is added only when `limit > 0`; the Python callers can pass a negative
limit, in which case every matching row is returned. -/
def get_profiles_by_status (store : List Row) (s : String) (limit : Int) : List String :=
  if 0 < limit then (statusUrls store s).take limit.toNat else statusUrls store s

/-- `Database.get_pending_profiles` (src/db.py lines 136-154). -/
def get_pending_profiles (store : List Row) (limit : Int) : List String :=
  get_profiles_by_status store STATUS_PENDING limit

/-! The daily_counters table: src/db.py. -/

/-- SELECT ... FROM daily_counters WHERE date = ? (the date column is
UNIQUE). -/
def findCounter : List CounterRow → String → Option CounterRow
  | [], _ => none
  | r :: rest, d => if r.date = d then some r else findCounter rest d

/-- `Database._ensure_daily_row` (src/db.py lines 264-271): INSERT OR IGNORE
today's row. -/
def ensureDailyRow (cs : List CounterRow) (today : String) : List CounterRow :=
  match findCounter cs today with
  | some _ => cs
  | none => cs ++ [⟨today, 0, 0⟩]

/-- The column update `SET {counter_type} = {counter_type} + 1` of
`Database.increment_daily_counter`, on one row. -/
def bump (r : CounterRow) (t : String) : CounterRow :=
  if t = COUNTER_CONNECTIONS then { r with connections_sent := r.connections_sent + 1 }
  else if t = COUNTER_MESSAGES then { r with messages_sent := r.messages_sent + 1 }
  else r

/-- The state change performed by `Database.increment_daily_counter` once the
counter type has been validated: ensure today's row, then bump it. -/
def incrementCore (cs : List CounterRow) (t today : String) : List CounterRow :=
  (ensureDailyRow cs today).map fun r => if r.date = today then bump r t else r

/-- `Database.increment_daily_counter` (src/db.py lines 273-292): raises
`ValueError` on an invalid counter type before touching the table. -/
def increment_daily_counter (cs : List CounterRow) (t today : String) :
    Except String (List CounterRow) :=
  if t = COUNTER_CONNECTIONS ∨ t = COUNTER_MESSAGES then
    Except.ok (incrementCore cs t today)
  else
    Except.error ("Invalid counter type: " ++ t)

/-- The SELECT of `Database.get_daily_count`: today's value of the requested
column, or 0 when today has no row yet. -/
def selectCount (cs : List CounterRow) (t today : String) : Nat :=
  match findCounter cs today with
  | some r => if t = COUNTER_CONNECTIONS then r.connections_sent else r.messages_sent
  | none => 0

/-- `Database.get_daily_count` (src/db.py lines 294-313): raises `ValueError`
on an invalid counter type. -/
def get_daily_count (cs : List CounterRow) (t today : String) : Except String Nat :=
  if t = COUNTER_CONNECTIONS ∨ t = COUNTER_MESSAGES then
    Except.ok (selectCount cs t today)
  else
    Except.error ("Invalid counter type: " ++ t)

/-- `Database.is_daily_cap_reached` for `connections_sent` (src/db.py lines
315-332): `count >= DAILY_CONNECTION_CAP`. -/
def is_daily_cap_reached_conn (cs : List CounterRow) (today : String) : Bool :=
  decide (DAILY_CONNECTION_CAP ≤ selectCount cs COUNTER_CONNECTIONS today)

/-- `Database.is_daily_cap_reached` for `messages_sent`: `count >=
DAILY_MESSAGE_CAP`. -/
def is_daily_cap_reached_msg (cs : List CounterRow) (today : String) : Bool :=
  decide (DAILY_MESSAGE_CAP ≤ selectCount cs COUNTER_MESSAGES today)

/-! The browser bot: src/linkedin_bot.py.  Notes are Python strings, i.e.
sequences of code points, modelled as `List Char`; Python's slice
`note[:297]` is `List.take 297`. -/

/-- The note truncation in `LinkedInBot.send_connection_request` (lines
553-558) and `LinkedInBot.dry_run_connection` (lines 1235-1237): LinkedIn
limits notes to 300 characters, so an over-long personalized note is cut to
its first 297 characters plus `"..."`. -/
def truncateNote (note : List Char) : List Char :=
  if 300 < note.length then note.take 297 ++ ['.', '.', '.'] else note

/-- The relationship states `LinkedInBot._detect_connection_state` can
report. -/
inductive DetectedState where
  | connect_visible
  | connect_in_more
  | already_connected
  | already_pending
  | no_connect_button
deriving DecidableEq, Repr

/-- What `LinkedInBot.send_connection_request` produced: the status string it
returns, and the note it handed to `_handle_connection_modal` (none when no
modal was reached). -/
structure InviteOutcome where
  status : String
  note_filled : Option (List Char)
deriving DecidableEq, Repr

/-- Steps 2-4 of `LinkedInBot.send_connection_request` (src/linkedin_bot.py
lines 529-577), for the with-note flow: dispatch on the detected state, click
Connect (success abstracted as `click_ok`), truncate the personalized note,
and hand it to the connection modal (whose success is `modal_ok`).  The
`personalized_note` argument is `note_template.format(first_name=...)`,
already computed at line 554. -/
def send_connection_request (state : DetectedState) (personalized_note : List Char)
    (click_ok modal_ok : Bool) : InviteOutcome :=
  match state with
  | .already_connected => ⟨"already_connected", none⟩
  | .already_pending => ⟨"already_pending", none⟩
  | .no_connect_button => ⟨STATUS_SKIPPED, none⟩
  | .connect_visible =>
    if click_ok then
      ⟨if modal_ok then STATUS_REQUEST_SENT else STATUS_ERROR,
       some (truncateNote personalized_note)⟩
    else ⟨STATUS_ERROR, none⟩
  | .connect_in_more =>
    if click_ok then
      ⟨if modal_ok then STATUS_REQUEST_SENT else STATUS_ERROR,
       some (truncateNote personalized_note)⟩
    else ⟨STATUS_ERROR, none⟩

/-- `LinkedInBot.dry_run_connection` (src/linkedin_bot.py lines 1217-1252):
computes the truncated note it would send (printed at line 1243), then
reports the status that WOULD result, clicking nothing. -/
def dry_run_connection (state : DetectedState) (personalized_note : List Char) :
    String × List Char :=
  (match state with
   | .connect_visible => STATUS_REQUEST_SENT
   | .connect_in_more => STATUS_REQUEST_SENT
   | .already_connected => "already_connected"
   | .already_pending => "already_pending"
   | .no_connect_button => STATUS_SKIPPED,
   truncateNote personalized_note)

/-! The orchestrator: src/main.py.  Each profile the loop visits yields a bot
result: either the status string the bot call returned, together with the
`h1` name scraped for logging (`name_info`, possibly absent), or an uncaught
exception with its message.  A `LinkedInCapReachedError` raised by the page
is caught inside the bot, which returns the status string "cap_reached"
(src/linkedin_bot.py lines 571-573). -/

inductive BotResult where
  | ok (status : String) (name : Option String)
  | exn (msg : String)
deriving DecidableEq, Repr

/-- One iteration of the per-profile loop of `run_connect` (src/main.py lines
191-250), after the cap check: the status dispatch, the database writes it
performs when not in dry-run, and whether it `break`s out of the loop (the
"cap_reached" branch breaks whether or not this is a dry run). -/
def connectStep (dry : Bool) (url : String) (r : BotResult) (st : RunState) (today : String)
    (now : Nat) : RunState × Bool :=
  match r with
  | .ok status name =>
    if status = STATUS_REQUEST_SENT then
      (if dry then st else
        ⟨update_status st.store url STATUS_REQUEST_SENT name none now,
         incrementCore st.counters COUNTER_CONNECTIONS today⟩, false)
    else if status = "already_connected" then
      (if dry then st else
        ⟨update_status st.store url STATUS_CONNECTED name none now, st.counters⟩, false)
    else if status = "already_pending" then
      (if dry then st else
        ⟨update_status st.store url STATUS_REQUEST_SENT none none now, st.counters⟩, false)
    else if status = STATUS_SKIPPED then
      (if dry then st else
        ⟨update_status st.store url STATUS_SKIPPED none none now, st.counters⟩, false)
    else if status = "cap_reached" then
      (if dry then st else
        ⟨update_status st.store url STATUS_PENDING none none now, st.counters⟩, true)
    else
      (if dry then st else
        ⟨update_status st.store url STATUS_ERROR none (some ("Status: " ++ status)) now,
         st.counters⟩, false)
  | .exn msg =>
    (if dry then st else
      ⟨update_status st.store url STATUS_ERROR none (some (msg.take 200)) now,
       st.counters⟩, false)

/-- The per-profile loop of `run_connect` (src/main.py lines 175-265), with
`db.is_daily_cap_reached(COUNTER_CONNECTIONS)` consulted before every
profile.  The delays are pure sleeps and are dropped; the run is taken to be
uninterrupted (no Ctrl+C). -/
def connectLoop (dry : Bool) : List (String × BotResult) → RunState → String → Nat → RunState
  | [], st, _, _ => st
  | (url, r) :: rest, st, today, now =>
    if is_daily_cap_reached_conn st.counters today then st
    else if (connectStep dry url r st today now).2 then (connectStep dry url r st today now).1
    else connectLoop dry rest (connectStep dry url r st today now).1 today now

/-- One iteration of the per-profile loop of `run_message` (src/main.py lines
412-448): the "not_connected" outcome writes nothing back. -/
def messageStep (dry : Bool) (url : String) (r : BotResult) (st : RunState) (today : String)
    (now : Nat) : RunState :=
  match r with
  | .ok status _ =>
    if status = STATUS_MESSAGED then
      if dry then st else
        ⟨update_status st.store url STATUS_MESSAGED none none now,
         incrementCore st.counters COUNTER_MESSAGES today⟩
    else if status = "not_connected" then st
    else if status = STATUS_SKIPPED then
      if dry then st else
        ⟨update_status st.store url STATUS_SKIPPED none none now, st.counters⟩
    else
      if dry then st else
        ⟨update_status st.store url STATUS_ERROR none (some ("Message error: " ++ status)) now,
         st.counters⟩
  | .exn msg =>
    if dry then st else
      ⟨update_status st.store url STATUS_ERROR none (some (msg.take 200)) now, st.counters⟩

/-- The per-profile loop of `run_message` (src/main.py lines 397-462), with
`db.is_daily_cap_reached(COUNTER_MESSAGES)` consulted before every
profile. -/
def messageLoop (dry : Bool) : List (String × BotResult) → RunState → String → Nat → RunState
  | [], st, _, _ => st
  | (url, r) :: rest, st, today, now =>
    if is_daily_cap_reached_msg st.counters today then st
    else messageLoop dry rest (messageStep dry url r st today now) today now

/-- `daily_cap = cap if cap > 0 else DAILY_CONNECTION_CAP` (src/main.py line
96); the `--cap` CLI flag is an int that may be zero or negative. -/
def effective_connection_cap (cap : Int) : Nat :=
  if 0 < cap then cap.toNat else DAILY_CONNECTION_CAP

/-- `daily_cap = cap if cap > 0 else DAILY_MESSAGE_CAP` (src/main.py line
319). -/
def effective_message_cap (cap : Int) : Nat :=
  if 0 < cap then cap.toNat else DAILY_MESSAGE_CAP

/-- `run_connect` (src/main.py lines 74-291): read the spreadsheet (its url
list is the `urls` argument), import, stop if the daily connection cap is
already reached, fetch at most `daily_cap - count` pending profiles (with the
Python quirk that a non-positive limit means "no limit"), and run the loop.
Template loading and browser login are external effects that do not touch the
database; `results` is the sequence of bot outcomes for the visited
profiles. -/
def run_connect (dry : Bool) (cap : Int) (urls : List String) (results : List BotResult)
    (st : RunState) (today : String) (now : Nat) : RunState :=
  if urls.isEmpty then st
  else
    let st1 : RunState := ⟨(import_urls st.store urls now).store, st.counters⟩
    if is_daily_cap_reached_conn st1.counters today then st1
    else
      let remaining : Int :=
        (effective_connection_cap cap : Int) -
          (selectCount st1.counters COUNTER_CONNECTIONS today : Int)
      let pending := get_pending_profiles st1.store remaining
      if pending.isEmpty then st1
      else connectLoop dry (pending.zip results) st1 today now

/-- `run_message` (src/main.py lines 296-492): import, stop if the daily
message cap is already reached, fetch at most `daily_cap - count` profiles
with status `request_sent`, and run the loop. -/
def run_message (dry : Bool) (cap : Int) (urls : List String) (results : List BotResult)
    (st : RunState) (today : String) (now : Nat) : RunState :=
  if urls.isEmpty then st
  else
    let st1 : RunState := ⟨(import_urls st.store urls now).store, st.counters⟩
    if is_daily_cap_reached_msg st1.counters today then st1
    else
      let remaining : Int :=
        (effective_message_cap cap : Int) -
          (selectCount st1.counters COUNTER_MESSAGES today : Int)
      let candidates := get_profiles_by_status st1.store STATUS_REQUEST_SENT remaining
      if candidates.isEmpty then st1
      else messageLoop dry (candidates.zip results) st1 today now

/-- Database states reachable through the core's operations (src/main.py):
the empty database created by `_create_tables`, url import, a connect run, a
message run, and the error reset. -/
inductive Reachable : RunState → Prop where
  | init : Reachable ⟨[], []⟩
  | importStep (urls : List String) (now : Nat) {s : RunState} :
      Reachable s → Reachable ⟨(import_urls s.store urls now).store, s.counters⟩
  | connectRun (dry : Bool) (cap : Int) (urls : List String) (results : List BotResult)
      (today : String) (now : Nat) {s : RunState} :
      Reachable s → Reachable (run_connect dry cap urls results s today now)
  | messageRun (dry : Bool) (cap : Int) (urls : List String) (results : List BotResult)
      (today : String) (now : Nat) {s : RunState} :
      Reachable s → Reachable (run_message dry cap urls results s today now)
  | resetStep (now : Nat) {s : RunState} :
      Reachable s → Reachable ⟨(reset_errors s.store now).1, s.counters⟩

/-! Helper lemmas about the daily counters. -/

lemma bump_date (r : CounterRow) (t : String) : (bump r t).date = r.date := by
  unfold bump; split_ifs <;> rfl

lemma findCounter_map_bump (cs : List CounterRow) (t today : String) :
    findCounter (cs.map fun r => if r.date = today then bump r t else r) today
      = (findCounter cs today).map (fun r => bump r t) := by
  induction cs with
  | nil => rfl
  | cons c rest ih =>
    by_cases h : c.date = today
    · simp [findCounter, h, bump_date]
    · simp [findCounter, h, ih]

lemma findCounter_append (l1 l2 : List CounterRow) (d : String) :
    findCounter (l1 ++ l2) d
      = ((findCounter l1 d).elim (findCounter l2 d) fun r => some r) := by
  induction l1 with
  | nil => rfl
  | cons c rest ih =>
    by_cases h : c.date = d
    · simp [findCounter, h]
    · simp [findCounter, h, ih]

lemma findCounter_none_date {cs : List CounterRow} {d : String}
    (h : findCounter cs d = none) : ∀ r ∈ cs, r.date ≠ d := by
  induction cs with
  | nil => simp
  | cons c rest ih =>
    intro r hr
    unfold findCounter at h
    by_cases hc : c.date = d
    · simp [hc] at h
    · rcases List.mem_cons.mp hr with hr | hr
      · simpa [hr] using hc
      · exact ih (by simpa [hc] using h) r hr

lemma selectCount_incConn (cs : List CounterRow) (today : String) :
    selectCount (incrementCore cs COUNTER_CONNECTIONS today) COUNTER_CONNECTIONS today
      = selectCount cs COUNTER_CONNECTIONS today + 1 := by
  unfold incrementCore ensureDailyRow
  cases h : findCounter cs today with
  | some r =>
    simp only [h]
    rw [selectCount, findCounter_map_bump, h]
    simp [selectCount, h, bump, COUNTER_CONNECTIONS]
  | none =>
    simp only [h, List.map_append]
    rw [selectCount, findCounter_append, findCounter_map_bump, h]
    simp [selectCount, h, findCounter, bump, COUNTER_CONNECTIONS]

lemma selectCount_incMsg (cs : List CounterRow) (today : String) :
    selectCount (incrementCore cs COUNTER_MESSAGES today) COUNTER_MESSAGES today
      = selectCount cs COUNTER_MESSAGES today + 1 := by
  unfold incrementCore ensureDailyRow
  cases h : findCounter cs today with
  | some r =>
    simp only [h]
    rw [selectCount, findCounter_map_bump, h]
    simp [selectCount, h, bump, COUNTER_CONNECTIONS, COUNTER_MESSAGES]
  | none =>
    simp only [h, List.map_append]
    rw [selectCount, findCounter_append, findCounter_map_bump, h]
    simp [selectCount, h, findCounter, bump, COUNTER_CONNECTIONS, COUNTER_MESSAGES]

lemma map_bump_id (cs : List CounterRow) (t today : String)
    (h : ∀ r ∈ cs, r.date ≠ today) :
    cs.map (fun r => if r.date = today then bump r t else r) = cs := by
  induction cs with
  | nil => rfl
  | cons c rest ih =>
    simp only [List.map_cons]
    rw [if_neg (h c (by simp)), ih fun r hr => h r (by simp [hr])]

/-! Helper lemmas about update_status. -/

lemma applyUpdate_url (r : Row) (status : String) (name error_msg : Option String) (now : Nat) :
    (applyUpdate r status name error_msg now).url = r.url := by
  unfold applyUpdate; split_ifs <;> rfl

lemma applyUpdate_status (r : Row) (status : String) (name error_msg : Option String)
    (now : Nat) : (applyUpdate r status name error_msg now).status = status := by
  unfold applyUpdate; split_ifs <;> rfl

lemma applyUpdate_updated_at (r : Row) (status : String) (name error_msg : Option String)
    (now : Nat) : (applyUpdate r status name error_msg now).updated_at = now := by
  unfold applyUpdate; split_ifs <;> rfl

lemma applyUpdate_emsg_none (r : Row) (status : String) (name : Option String) (now : Nat) :
    (applyUpdate r status name none now).error_msg = r.error_msg := by
  unfold applyUpdate
  split_ifs with h1 h2 h3
  · exact absurd h1 (by simp [truthy])
  · rfl
  · exact absurd h3 (by simp [truthy])
  · rfl

lemma update_status_map_url (store : List Row) (u s : String) (n e : Option String) (now : Nat) :
    (update_status store u s n e now).map (fun r => r.url) = store.map (fun r => r.url) := by
  unfold update_status
  rw [List.map_map]
  apply List.map_congr_left
  intro r _
  by_cases h : r.url = u <;> simp [h, applyUpdate_url]

lemma mem_update_status {r' : Row} {store : List Row} {u s : String} {n e : Option String}
    {now : Nat} (h : r' ∈ update_status store u s n e now) :
    (∃ r, r ∈ store ∧ r.url = u ∧ r' = applyUpdate r s n e now) ∨
      (r' ∈ store ∧ r'.url ≠ u) := by
  unfold update_status at h
  rcases List.mem_map.mp h with ⟨r, hr, hr'⟩
  by_cases hu : r.url = u
  · left; exact ⟨r, hr, hu, by rw [← hr', if_pos hu]⟩
  · right
    rw [if_neg hu] at hr'
    exact ⟨hr' ▸ hr, hr' ▸ hu⟩

lemma mem_update_status_of_ne {r : Row} {store : List Row} {u : String} (s : String)
    (n e : Option String) (now : Nat) (h : r ∈ store) (hne : r.url ≠ u) :
    r ∈ update_status store u s n e now := by
  unfold update_status
  exact List.mem_map.mpr ⟨r, h, by rw [if_neg hne]⟩

lemma update_status_absent (store : List Row) (u s : String) (n e : Option String) (now : Nat)
    (h : ∀ r ∈ store, r.url ≠ u) : update_status store u s n e now = store := by
  unfold update_status
  conv_rhs => rw [← List.map_id store]
  apply List.map_congr_left
  intro r hr
  rw [if_neg (h r hr)]
  rfl

/-! Helper lemmas about one loop step each workflow performs. -/

lemma connectStep_cases (dry : Bool) (url : String) (r : BotResult) (st : RunState)
    (today : String) (now : Nat) :
    (connectStep dry url r st today now).1 = st ∨
    (∃ status name,
      (connectStep dry url r st today now).1
        = ⟨update_status st.store url status name none now, st.counters⟩) ∨
    (∃ name,
      (connectStep dry url r st today now).1
        = ⟨update_status st.store url STATUS_REQUEST_SENT name none now,
            incrementCore st.counters COUNTER_CONNECTIONS today⟩) ∨
    (∃ m,
      (connectStep dry url r st today now).1
        = ⟨update_status st.store url STATUS_ERROR none (some m) now, st.counters⟩) := by
  rcases r with ⟨status, name⟩ | msg
  · cases dry with
    | true =>
      refine Or.inl ?_
      simp only [connectStep]
      split_ifs <;> simp_all
    | false =>
      simp only [connectStep]
      by_cases h1 : status = STATUS_REQUEST_SENT
      · rw [if_pos h1, if_neg Bool.false_ne_true]
        exact Or.inr (Or.inr (Or.inl ⟨name, rfl⟩))
      · rw [if_neg h1]
        by_cases h2 : status = "already_connected"
        · rw [if_pos h2, if_neg Bool.false_ne_true]
          exact Or.inr (Or.inl ⟨STATUS_CONNECTED, name, rfl⟩)
        · rw [if_neg h2]
          by_cases h3 : status = "already_pending"
          · rw [if_pos h3, if_neg Bool.false_ne_true]
            exact Or.inr (Or.inl ⟨STATUS_REQUEST_SENT, none, rfl⟩)
          · rw [if_neg h3]
            by_cases h4 : status = STATUS_SKIPPED
            · rw [if_pos h4, if_neg Bool.false_ne_true]
              exact Or.inr (Or.inl ⟨STATUS_SKIPPED, none, rfl⟩)
            · rw [if_neg h4]
              by_cases h5 : status = "cap_reached"
              · rw [if_pos h5, if_neg Bool.false_ne_true]
                exact Or.inr (Or.inl ⟨STATUS_PENDING, none, rfl⟩)
              · rw [if_neg h5, if_neg Bool.false_ne_true]
                exact Or.inr (Or.inr (Or.inr ⟨"Status: " ++ status, rfl⟩))
  · cases dry with
    | true => exact Or.inl (by simp [connectStep])
    | false =>
      simp only [connectStep]
      rw [if_neg Bool.false_ne_true]
      exact Or.inr (Or.inr (Or.inr ⟨msg.take 200, rfl⟩))

lemma connectStep_counters (dry : Bool) (url : String) (r : BotResult) (st : RunState)
    (today : String) (now : Nat) :
    (connectStep dry url r st today now).1.counters = st.counters ∨
    (connectStep dry url r st today now).1.counters
      = incrementCore st.counters COUNTER_CONNECTIONS today := by
  rcases connectStep_cases dry url r st today now with h | ⟨s, n, h⟩ | ⟨n, h⟩ | ⟨m, h⟩ <;>
    rw [h] <;> simp

lemma connectStep_dry (url : String) (r : BotResult) (st : RunState) (today : String)
    (now : Nat) : (connectStep true url r st today now).1 = st := by
  rcases r with ⟨status, name⟩ | msg <;> simp only [connectStep] <;> split_ifs <;> rfl

lemma messageStep_cases (dry : Bool) (url : String) (r : BotResult) (st : RunState)
    (today : String) (now : Nat) :
    messageStep dry url r st today now = st ∨
    (messageStep dry url r st today now
      = ⟨update_status st.store url STATUS_MESSAGED none none now,
          incrementCore st.counters COUNTER_MESSAGES today⟩) ∨
    (messageStep dry url r st today now
      = ⟨update_status st.store url STATUS_SKIPPED none none now, st.counters⟩) ∨
    (∃ m,
      messageStep dry url r st today now
        = ⟨update_status st.store url STATUS_ERROR none (some m) now, st.counters⟩) := by
  rcases r with ⟨status, name⟩ | msg
  · cases dry with
    | true =>
      refine Or.inl ?_
      simp only [messageStep]
      split_ifs <;> simp_all
    | false =>
      simp only [messageStep]
      by_cases h1 : status = STATUS_MESSAGED
      · rw [if_pos h1, if_neg Bool.false_ne_true]
        exact Or.inr (Or.inl rfl)
      · rw [if_neg h1]
        by_cases h2 : status = "not_connected"
        · rw [if_pos h2]
          exact Or.inl rfl
        · rw [if_neg h2]
          by_cases h3 : status = STATUS_SKIPPED
          · rw [if_pos h3, if_neg Bool.false_ne_true]
            exact Or.inr (Or.inr (Or.inl rfl))
          · rw [if_neg h3, if_neg Bool.false_ne_true]
            exact Or.inr (Or.inr (Or.inr ⟨"Message error: " ++ status, rfl⟩))
  · cases dry with
    | true => exact Or.inl (by simp [messageStep])
    | false =>
      simp only [messageStep]
      rw [if_neg Bool.false_ne_true]
      exact Or.inr (Or.inr (Or.inr ⟨msg.take 200, rfl⟩))

lemma messageStep_counters (dry : Bool) (url : String) (r : BotResult) (st : RunState)
    (today : String) (now : Nat) :
    (messageStep dry url r st today now).counters = st.counters ∨
    (messageStep dry url r st today now).counters
      = incrementCore st.counters COUNTER_MESSAGES today := by
  rcases messageStep_cases dry url r st today now with h | h | h | ⟨m, h⟩ <;>
    rw [h] <;> simp

lemma messageStep_dry (url : String) (r : BotResult) (st : RunState) (today : String)
    (now : Nat) : messageStep true url r st today now = st := by
  rcases r with ⟨status, name⟩ | msg <;> simp only [messageStep] <;> split_ifs <;> rfl

/-! Helper lemmas about the two per-profile loops. -/

lemma connectLoop_cap (dry : Bool) (items : List (String × BotResult)) (st : RunState)
    (today : String) (now : Nat)
    (h : selectCount st.counters COUNTER_CONNECTIONS today ≤ DAILY_CONNECTION_CAP) :
    selectCount (connectLoop dry items st today now).counters COUNTER_CONNECTIONS today
      ≤ DAILY_CONNECTION_CAP := by
  induction items generalizing st with
  | nil => simpa [connectLoop] using h
  | cons p rest ih =>
    obtain ⟨url, r⟩ := p
    simp only [connectLoop]
    by_cases hc : is_daily_cap_reached_conn st.counters today
    · simpa [hc] using h
    · have hlt : selectCount st.counters COUNTER_CONNECTIONS today < DAILY_CONNECTION_CAP := by
        unfold is_daily_cap_reached_conn at hc
        simp at hc
        omega
      have hle : selectCount (connectStep dry url r st today now).1.counters
          COUNTER_CONNECTIONS today ≤ DAILY_CONNECTION_CAP := by
        rcases connectStep_counters dry url r st today now with he | he <;> rw [he]
        · exact h
        · rw [selectCount_incConn]; omega
      rw [if_neg hc]
      split
      · exact hle
      · exact ih _ hle

lemma messageLoop_cap (dry : Bool) (items : List (String × BotResult)) (st : RunState)
    (today : String) (now : Nat)
    (h : selectCount st.counters COUNTER_MESSAGES today ≤ DAILY_MESSAGE_CAP) :
    selectCount (messageLoop dry items st today now).counters COUNTER_MESSAGES today
      ≤ DAILY_MESSAGE_CAP := by
  induction items generalizing st with
  | nil => simpa [messageLoop] using h
  | cons p rest ih =>
    obtain ⟨url, r⟩ := p
    simp only [messageLoop]
    by_cases hc : is_daily_cap_reached_msg st.counters today
    · simpa [hc] using h
    · have hlt : selectCount st.counters COUNTER_MESSAGES today < DAILY_MESSAGE_CAP := by
        unfold is_daily_cap_reached_msg at hc
        simp at hc
        omega
      have hle : selectCount (messageStep dry url r st today now).counters
          COUNTER_MESSAGES today ≤ DAILY_MESSAGE_CAP := by
        rcases messageStep_counters dry url r st today now with he | he <;> rw [he]
        · exact h
        · rw [selectCount_incMsg]; omega
      rw [if_neg hc]
      exact ih _ hle

lemma connectLoop_capped_stops (dry : Bool) (items : List (String × BotResult)) (st : RunState)
    (today : String) (now : Nat) (h : is_daily_cap_reached_conn st.counters today = true) :
    connectLoop dry items st today now = st := by
  cases items with
  | nil => rfl
  | cons p rest =>
    obtain ⟨url, r⟩ := p
    simp only [connectLoop]
    rw [if_pos h]

lemma messageLoop_capped_stops (dry : Bool) (items : List (String × BotResult)) (st : RunState)
    (today : String) (now : Nat) (h : is_daily_cap_reached_msg st.counters today = true) :
    messageLoop dry items st today now = st := by
  cases items with
  | nil => rfl
  | cons p rest =>
    obtain ⟨url, r⟩ := p
    simp only [messageLoop]
    rw [if_pos h]

lemma connectLoop_dry (items : List (String × BotResult)) (st : RunState) (today : String)
    (now : Nat) : connectLoop true items st today now = st := by
  induction items generalizing st with
  | nil => rfl
  | cons p rest ih =>
    obtain ⟨url, r⟩ := p
    simp only [connectLoop, connectStep_dry]
    split
    · rfl
    · split
      · rfl
      · exact ih st

lemma messageLoop_dry (items : List (String × BotResult)) (st : RunState) (today : String)
    (now : Nat) : messageLoop true items st today now = st := by
  induction items generalizing st with
  | nil => rfl
  | cons p rest ih =>
    obtain ⟨url, r⟩ := p
    simp only [messageLoop, messageStep_dry]
    split
    · rfl
    · exact ih st

/-! Helper lemmas about url import. -/

lemma urlExists_iff (store : List Row) (u : String) :
    urlExists store u = true ↔ ∃ r ∈ store, r.url = u := by
  induction store with
  | nil => simp [urlExists]
  | cons r rest ih =>
    by_cases h : r.url = u
    · simp [urlExists, h]
    · simp only [urlExists, if_neg h, ih]
      constructor
      · rintro ⟨r', hr', hu⟩
        exact ⟨r', List.mem_cons_of_mem r hr', hu⟩
      · rintro ⟨r', hr', hu⟩
        rcases List.mem_cons.mp hr' with he | he
        · exact absurd (he ▸ hu) h
        · exact ⟨r', he, hu⟩

lemma urlExists_append (l1 l2 : List Row) (u : String) :
    urlExists (l1 ++ l2) u = (urlExists l1 u || urlExists l2 u) := by
  induction l1 with
  | nil => simp [urlExists]
  | cons r rest ih =>
    by_cases h : r.url = u <;> simp [urlExists, h, ih]

lemma importLoop_counts (urls : List String) (store : List Row) (now : Nat) :
    (importLoop store urls now).2.1 + (importLoop store urls now).2.2 = urls.length := by
  induction urls generalizing store with
  | nil => rfl
  | cons u rest ih =>
    simp only [importLoop]
    split
    · have := ih store
      simp only [List.length_cons]
      omega
    · have := ih (store ++ [newRow u now])
      simp only [List.length_cons]
      omega

lemma importLoop_store_suffix (urls : List String) (store : List Row) (now : Nat) :
    ∃ new, (importLoop store urls now).1 = store ++ new := by
  induction urls generalizing store with
  | nil => exact ⟨[], by simp [importLoop]⟩
  | cons u rest ih =>
    simp only [importLoop]
    split
    · exact ih store
    · obtain ⟨new, hnew⟩ := ih (store ++ [newRow u now])
      exact ⟨newRow u now :: new, by simp [hnew]⟩

lemma importLoop_mem {r : Row} {store : List Row} (urls : List String) (now : Nat)
    (h : r ∈ store) : r ∈ (importLoop store urls now).1 := by
  obtain ⟨new, hnew⟩ := importLoop_store_suffix urls store now
  rw [hnew]
  exact List.mem_append_left new h

lemma importLoop_shape (urls : List String) (store : List Row) (now : Nat) :
    ∀ r ∈ (importLoop store urls now).1, r ∈ store ∨ ∃ u ∈ urls, r = newRow u now := by
  induction urls generalizing store with
  | nil => intro r hr; exact Or.inl hr
  | cons u rest ih =>
    intro r hr
    simp only [importLoop] at hr
    by_cases hc : urlExists store u
    · rw [if_pos hc] at hr
      rcases ih store r hr with h | ⟨v, hv, hveq⟩
      · exact Or.inl h
      · exact Or.inr ⟨v, List.mem_cons_of_mem u hv, hveq⟩
    · rw [if_neg hc] at hr
      rcases ih (store ++ [newRow u now]) r hr with h | ⟨v, hv, hveq⟩
      · rcases List.mem_append.mp h with h' | h'
        · exact Or.inl h'
        · exact Or.inr ⟨u, List.mem_cons_self u rest, by simpa using h'⟩
      · exact Or.inr ⟨v, List.mem_cons_of_mem u hv, hveq⟩

lemma importLoop_inserts (urls : List String) (now : Nat) (u : String) :
    ∀ store : List Row, u ∈ urls → urlExists store u = false →
      newRow u now ∈ (importLoop store urls now).1 := by
  induction urls with
  | nil => intro store hu habs; cases hu
  | cons v rest ih =>
    intro store hu habs
    simp only [importLoop]
    by_cases hv : urlExists store v
    · rw [if_pos hv]
      rcases List.mem_cons.mp hu with he | he
      · rw [he] at habs
        rw [habs] at hv
        cases hv
      · exact ih store he habs
    · rw [if_neg hv]
      rcases List.mem_cons.mp hu with he | he
      · subst he
        exact importLoop_mem rest now (List.mem_append_right store (by simp))
      · by_cases huv : u = v
        · subst huv
          exact importLoop_mem rest now (List.mem_append_right store (by simp))
        · refine ih (store ++ [newRow v now]) he ?_
          rw [urlExists_append, habs]
          simp only [urlExists, newRow, Bool.false_or]
          rw [if_neg (fun he' => huv he'.symm)]

lemma importLoop_nodup (urls : List String) (now : Nat) :
    ∀ store : List Row, (store.map (fun r => r.url)).Nodup →
      ((importLoop store urls now).1.map (fun r => r.url)).Nodup := by
  induction urls with
  | nil => intro store h; exact h
  | cons u rest ih =>
    intro store h
    simp only [importLoop]
    by_cases hc : urlExists store u
    · rw [if_pos hc]
      exact ih store h
    · rw [if_neg hc]
      refine ih (store ++ [newRow u now]) ?_
      rw [List.map_append, List.nodup_append]
      refine ⟨h, by simp, ?_⟩
      intro x hx hx'
      have hxu : x = u := by simpa [newRow] using hx'
      subst hxu
      rcases List.mem_map.mp hx with ⟨r, hr, hru⟩
      exact absurd ((urlExists_iff store x).mpr ⟨r, hr, hru⟩) (by simp [hc])

/-! The store invariant of §3 of the design document: `error_msg` is non-null
only on rows whose status is ERROR, and urls are unique. -/

/-- The §3 invariant on the error-message column. -/
def ErrInv (store : List Row) : Prop :=
  ∀ r ∈ store, r.error_msg ≠ none → r.status = STATUS_ERROR

/-- Uniqueness of `profiles.url` (the UNIQUE constraint). -/
def UrlNodup (store : List Row) : Prop :=
  (store.map (fun r => r.url)).Nodup

lemma urlInj {store : List Row} (h : UrlNodup store) {r1 r2 : Row} (h1 : r1 ∈ store)
    (h2 : r2 ∈ store) (hu : r1.url = r2.url) : r1 = r2 :=
  List.inj_on_of_nodup_map h h1 h2 hu

lemma statusUrls_mem {store : List Row} {s u : String} (h : u ∈ statusUrls store s) :
    ∃ r ∈ store, r.url = u ∧ r.status = s := by
  induction store with
  | nil => cases h
  | cons r rest ih =>
    by_cases hr : r.status = s
    · rw [statusUrls, if_pos hr] at h
      rcases List.mem_cons.mp h with he | he
      · exact ⟨r, List.mem_cons_self r rest, he.symm, hr⟩
      · obtain ⟨r', hr', hu', hs'⟩ := ih he
        exact ⟨r', List.mem_cons_of_mem r hr', hu', hs'⟩
    · rw [statusUrls, if_neg hr] at h
      obtain ⟨r', hr', hu', hs'⟩ := ih h
      exact ⟨r', List.mem_cons_of_mem r hr', hu', hs'⟩

lemma statusUrls_sublist (store : List Row) (s : String) :
    (statusUrls store s).Sublist (store.map (fun r => r.url)) := by
  induction store with
  | nil => simp [statusUrls]
  | cons r rest ih =>
    by_cases hr : r.status = s
    · rw [statusUrls, if_pos hr]
      simpa using ih.cons₂ r.url
    · rw [statusUrls, if_neg hr]
      simpa using ih.cons r.url

lemma get_profiles_sublist (store : List Row) (s : String) (limit : Int) :
    (get_profiles_by_status store s limit).Sublist (store.map (fun r => r.url)) := by
  unfold get_profiles_by_status
  split
  · exact ((statusUrls store s).take_sublist _).trans (statusUrls_sublist store s)
  · exact statusUrls_sublist store s

lemma get_profiles_mem {store : List Row} {s u : String} {limit : Int}
    (h : u ∈ get_profiles_by_status store s limit) :
    ∃ r ∈ store, r.url = u ∧ r.status = s := by
  unfold get_profiles_by_status at h
  split at h
  · exact statusUrls_mem (List.take_subset _ _ h)
  · exact statusUrls_mem h

lemma zip_fst_sublist {α β : Type} (l1 : List α) (l2 : List β) :
    ((l1.zip l2).map Prod.fst).Sublist l1 := by
  induction l1 generalizing l2 with
  | nil => simp
  | cons a rest ih =>
    cases l2 with
    | nil => simp
    | cons b rest2 => simpa using (ih rest2).cons₂ a

/-! Preservation of the invariant by each database write. -/

lemma ErrInv_update_emsg_none {store : List Row} {u : String} (h : ErrInv store)
    (hclean : ∀ r ∈ store, r.url = u → r.error_msg = none) (s : String)
    (name : Option String) (now : Nat) :
    ErrInv (update_status store u s name none now) := by
  intro r' hr' hmsg
  rcases mem_update_status hr' with ⟨r, hr, hu, he⟩ | ⟨hr, _⟩
  · rw [he, applyUpdate_emsg_none, hclean r hr hu] at hmsg
    exact absurd rfl hmsg
  · exact h r' hr hmsg

lemma ErrInv_update_error {store : List Row} {u : String} (h : ErrInv store)
    (m : String) (now : Nat) :
    ErrInv (update_status store u STATUS_ERROR none (some m) now) := by
  intro r' hr' hmsg
  rcases mem_update_status hr' with ⟨r, _, _, he⟩ | ⟨hr, _⟩
  · rw [he, applyUpdate_status]
  · exact h r' hr hmsg

lemma clean_update {store : List Row} {u v : String} (s : String) (n e : Option String)
    (now : Nat) (hclean : ∀ r ∈ store, r.url = v → r.error_msg = none) (hv : v ≠ u) :
    ∀ r' ∈ update_status store u s n e now, r'.url = v → r'.error_msg = none := by
  intro r' hr' hv'
  rcases mem_update_status hr' with ⟨r, _, hu, he⟩ | ⟨hr, _⟩
  · rw [he, applyUpdate_url] at hv'
    exact absurd (hv'.symm.trans hu) hv
  · exact hclean r' hr hv'

lemma ErrInv_reset {store : List Row} (h : ErrInv store) (now : Nat) :
    ErrInv (reset_errors store now).1 := by
  intro r' hr' hmsg
  unfold reset_errors at hr'
  rcases List.mem_map.mp hr' with ⟨r, hr, he⟩
  unfold resetRow at he
  split at he
  · rw [← he] at hmsg
    exact absurd rfl hmsg
  · exact he ▸ h r hr (he ▸ hmsg)

lemma ErrInv_import {store : List Row} (h : ErrInv store) (urls : List String) (now : Nat) :
    ErrInv (import_urls store urls now).store := by
  intro r' hr' hmsg
  rcases importLoop_shape urls store now r' hr' with hm | ⟨u, _, he⟩
  · exact h r' hm hmsg
  · rw [he] at hmsg
    exact absurd rfl hmsg

/-! Preservation of the invariant by the per-profile loops. -/

lemma connectStep_map_url (dry : Bool) (url : String) (r : BotResult) (st : RunState)
    (today : String) (now : Nat) :
    (connectStep dry url r st today now).1.store.map (fun x => x.url)
      = st.store.map (fun x => x.url) := by
  rcases connectStep_cases dry url r st today now with h | ⟨s, n, h⟩ | ⟨n, h⟩ | ⟨m, h⟩ <;>
    rw [h] <;> simp [update_status_map_url]

lemma messageStep_map_url (dry : Bool) (url : String) (r : BotResult) (st : RunState)
    (today : String) (now : Nat) :
    (messageStep dry url r st today now).store.map (fun x => x.url)
      = st.store.map (fun x => x.url) := by
  rcases messageStep_cases dry url r st today now with h | h | h | ⟨m, h⟩ <;>
    rw [h] <;> simp [update_status_map_url]

lemma connectLoop_map_url (dry : Bool) (items : List (String × BotResult)) (st : RunState)
    (today : String) (now : Nat) :
    (connectLoop dry items st today now).store.map (fun x => x.url)
      = st.store.map (fun x => x.url) := by
  induction items generalizing st with
  | nil => rfl
  | cons p rest ih =>
    obtain ⟨url, r⟩ := p
    simp only [connectLoop]
    split
    · rfl
    · split
      · exact connectStep_map_url dry url r st today now
      · rw [ih]
        exact connectStep_map_url dry url r st today now

lemma messageLoop_map_url (dry : Bool) (items : List (String × BotResult)) (st : RunState)
    (today : String) (now : Nat) :
    (messageLoop dry items st today now).store.map (fun x => x.url)
      = st.store.map (fun x => x.url) := by
  induction items generalizing st with
  | nil => rfl
  | cons p rest ih =>
    obtain ⟨url, r⟩ := p
    simp only [messageLoop]
    split
    · rfl
    · rw [ih]
      exact messageStep_map_url dry url r st today now

lemma connectStep_ErrInv {dry : Bool} {url : String} {r : BotResult} {st : RunState}
    {today : String} {now : Nat} (h : ErrInv st.store)
    (hclean : ∀ x ∈ st.store, x.url = url → x.error_msg = none) :
    ErrInv (connectStep dry url r st today now).1.store := by
  rcases connectStep_cases dry url r st today now with he | ⟨s, n, he⟩ | ⟨n, he⟩ | ⟨m, he⟩ <;>
    rw [he]
  · exact h
  · exact ErrInv_update_emsg_none h hclean s n now
  · exact ErrInv_update_emsg_none h hclean STATUS_REQUEST_SENT n now
  · exact ErrInv_update_error h m now

lemma messageStep_ErrInv {dry : Bool} {url : String} {r : BotResult} {st : RunState}
    {today : String} {now : Nat} (h : ErrInv st.store)
    (hclean : ∀ x ∈ st.store, x.url = url → x.error_msg = none) :
    ErrInv (messageStep dry url r st today now).store := by
  rcases messageStep_cases dry url r st today now with he | he | he | ⟨m, he⟩ <;> rw [he]
  · exact h
  · exact ErrInv_update_emsg_none h hclean STATUS_MESSAGED none now
  · exact ErrInv_update_emsg_none h hclean STATUS_SKIPPED none now
  · exact ErrInv_update_error h m now

lemma connectStep_clean {dry : Bool} {url : String} {r : BotResult} {st : RunState}
    {today : String} {now : Nat} {v : String}
    (hclean : ∀ x ∈ st.store, x.url = v → x.error_msg = none) (hv : v ≠ url) :
    ∀ x ∈ (connectStep dry url r st today now).1.store, x.url = v → x.error_msg = none := by
  rcases connectStep_cases dry url r st today now with he | ⟨s, n, he⟩ | ⟨n, he⟩ | ⟨m, he⟩ <;>
    rw [he]
  · exact hclean
  · exact clean_update s n none now hclean hv
  · exact clean_update STATUS_REQUEST_SENT n none now hclean hv
  · exact clean_update STATUS_ERROR none (some m) now hclean hv

lemma messageStep_clean {dry : Bool} {url : String} {r : BotResult} {st : RunState}
    {today : String} {now : Nat} {v : String}
    (hclean : ∀ x ∈ st.store, x.url = v → x.error_msg = none) (hv : v ≠ url) :
    ∀ x ∈ (messageStep dry url r st today now).store, x.url = v → x.error_msg = none := by
  rcases messageStep_cases dry url r st today now with he | he | he | ⟨m, he⟩ <;> rw [he]
  · exact hclean
  · exact clean_update STATUS_MESSAGED none none now hclean hv
  · exact clean_update STATUS_SKIPPED none none now hclean hv
  · exact clean_update STATUS_ERROR none (some m) now hclean hv

lemma connectLoop_ErrInv (dry : Bool) (items : List (String × BotResult)) (st : RunState)
    (today : String) (now : Nat) (h : ErrInv st.store)
    (hclean : ∀ it ∈ items, ∀ x ∈ st.store, x.url = it.1 → x.error_msg = none)
    (hnd : (items.map Prod.fst).Nodup) :
    ErrInv (connectLoop dry items st today now).store := by
  induction items generalizing st with
  | nil => exact h
  | cons p rest ih =>
    obtain ⟨url, r⟩ := p
    simp only [connectLoop]
    split
    · exact h
    · have hhead : ∀ x ∈ st.store, x.url = url → x.error_msg = none :=
        hclean (url, r) (List.mem_cons_self _ _)
      have h' : ErrInv (connectStep dry url r st today now).1.store :=
        connectStep_ErrInv h hhead
      split
      · exact h'
      · refine ih _ h' ?_ (List.Nodup.of_cons (by simpa using hnd))
        intro it hit
        have hv : it.1 ≠ url := by
          intro he
          have : url ∈ rest.map Prod.fst := he ▸ List.mem_map_of_mem Prod.fst hit
          simp only [List.map_cons, List.nodup_cons] at hnd
          exact hnd.1 this
        exact connectStep_clean (hclean it (List.mem_cons_of_mem _ hit)) hv

lemma messageLoop_ErrInv (dry : Bool) (items : List (String × BotResult)) (st : RunState)
    (today : String) (now : Nat) (h : ErrInv st.store)
    (hclean : ∀ it ∈ items, ∀ x ∈ st.store, x.url = it.1 → x.error_msg = none)
    (hnd : (items.map Prod.fst).Nodup) :
    ErrInv (messageLoop dry items st today now).store := by
  induction items generalizing st with
  | nil => exact h
  | cons p rest ih =>
    obtain ⟨url, r⟩ := p
    simp only [messageLoop]
    split
    · exact h
    · have hhead : ∀ x ∈ st.store, x.url = url → x.error_msg = none :=
        hclean (url, r) (List.mem_cons_self _ _)
      have h' : ErrInv (messageStep dry url r st today now).store :=
        messageStep_ErrInv h hhead
      refine ih _ h' ?_ (List.Nodup.of_cons (by simpa using hnd))
      intro it hit
      have hv : it.1 ≠ url := by
        intro he
        have : url ∈ rest.map Prod.fst := he ▸ List.mem_map_of_mem Prod.fst hit
        simp only [List.map_cons, List.nodup_cons] at hnd
        exact hnd.1 this
      exact messageStep_clean (hclean it (List.mem_cons_of_mem _ hit)) hv

/-! Invariant preservation by whole runs. -/

lemma clean_of_status {store : List Row} (hinv : ErrInv store) (hnod : UrlNodup store)
    {u s : String} (hs : s ≠ STATUS_ERROR)
    (hmem : ∃ r ∈ store, r.url = u ∧ r.status = s) :
    ∀ x ∈ store, x.url = u → x.error_msg = none := by
  intro x hx hxu
  obtain ⟨r, hr, hru, hrs⟩ := hmem
  have hxr : x = r := urlInj hnod hx hr (hxu.trans hru.symm)
  subst hxr
  by_cases he : x.error_msg = none
  · exact he
  · have hxe := hinv x hx he
    rw [hrs] at hxe
    exact absurd hxe hs

lemma connectLoop_profiles_inv (dry : Bool) (results : List BotResult) (st1 : RunState)
    (today : String) (now : Nat) (lim : Int)
    (h1 : ErrInv st1.store) (hn1 : UrlNodup st1.store) :
    ErrInv (connectLoop dry ((get_pending_profiles st1.store lim).zip results)
        st1 today now).store ∧
      UrlNodup (connectLoop dry ((get_pending_profiles st1.store lim).zip results)
        st1 today now).store := by
  constructor
  · apply connectLoop_ErrInv _ _ _ _ _ h1
    · intro it hit
      obtain ⟨u, b⟩ := it
      have hu : u ∈ get_profiles_by_status st1.store STATUS_PENDING lim :=
        (List.of_mem_zip hit).1
      exact clean_of_status h1 hn1 (by decide) (get_profiles_mem hu)
    · exact List.Nodup.sublist
        ((zip_fst_sublist _ _).trans (get_profiles_sublist _ _ _)) hn1
  · rw [UrlNodup, connectLoop_map_url]
    exact hn1

lemma messageLoop_profiles_inv (dry : Bool) (results : List BotResult) (st1 : RunState)
    (today : String) (now : Nat) (lim : Int)
    (h1 : ErrInv st1.store) (hn1 : UrlNodup st1.store) :
    ErrInv (messageLoop dry
        ((get_profiles_by_status st1.store STATUS_REQUEST_SENT lim).zip results)
        st1 today now).store ∧
      UrlNodup (messageLoop dry
        ((get_profiles_by_status st1.store STATUS_REQUEST_SENT lim).zip results)
        st1 today now).store := by
  constructor
  · apply messageLoop_ErrInv _ _ _ _ _ h1
    · intro it hit
      obtain ⟨u, b⟩ := it
      have hu : u ∈ get_profiles_by_status st1.store STATUS_REQUEST_SENT lim :=
        (List.of_mem_zip hit).1
      exact clean_of_status h1 hn1 (by decide) (get_profiles_mem hu)
    · exact List.Nodup.sublist
        ((zip_fst_sublist _ _).trans (get_profiles_sublist _ _ _)) hn1
  · rw [UrlNodup, messageLoop_map_url]
    exact hn1

lemma run_connect_inv (dry : Bool) (cap : Int) (urls : List String)
    (results : List BotResult) (st : RunState) (today : String) (now : Nat)
    (h : ErrInv st.store) (hn : UrlNodup st.store) :
    ErrInv (run_connect dry cap urls results st today now).store ∧
      UrlNodup (run_connect dry cap urls results st today now).store := by
  have h1 : ErrInv (import_urls st.store urls now).store := ErrInv_import h urls now
  have hn1 : UrlNodup (import_urls st.store urls now).store :=
    importLoop_nodup urls now st.store hn
  simp only [run_connect]
  split
  · exact ⟨h, hn⟩
  · split
    · exact ⟨h1, hn1⟩
    · split
      · exact ⟨h1, hn1⟩
      · exact connectLoop_profiles_inv dry results
          ⟨(import_urls st.store urls now).store, st.counters⟩ today now _ h1 hn1

lemma run_message_inv (dry : Bool) (cap : Int) (urls : List String)
    (results : List BotResult) (st : RunState) (today : String) (now : Nat)
    (h : ErrInv st.store) (hn : UrlNodup st.store) :
    ErrInv (run_message dry cap urls results st today now).store ∧
      UrlNodup (run_message dry cap urls results st today now).store := by
  have h1 : ErrInv (import_urls st.store urls now).store := ErrInv_import h urls now
  have hn1 : UrlNodup (import_urls st.store urls now).store :=
    importLoop_nodup urls now st.store hn
  simp only [run_message]
  split
  · exact ⟨h, hn⟩
  · split
    · exact ⟨h1, hn1⟩
    · split
      · exact ⟨h1, hn1⟩
      · exact messageLoop_profiles_inv dry results
          ⟨(import_urls st.store urls now).store, st.counters⟩ today now _ h1 hn1

lemma reset_map_url (store : List Row) (now : Nat) :
    ((reset_errors store now).1.map fun r => r.url) = store.map fun r => r.url := by
  unfold reset_errors
  rw [List.map_map]
  apply List.map_congr_left
  intro r _
  simp only [Function.comp_apply]
  unfold resetRow
  split <;> rfl

lemma reachable_inv (s : RunState) (h : Reachable s) : ErrInv s.store ∧ UrlNodup s.store := by
  induction h with
  | init =>
    constructor
    · intro r hr
      cases hr
    · simp [UrlNodup]
  | importStep urls now h ih =>
    exact ⟨ErrInv_import ih.1 urls now, importLoop_nodup urls now _ ih.2⟩
  | connectRun dry cap urls results today now h ih =>
    exact run_connect_inv dry cap urls results _ today now ih.1 ih.2
  | messageRun dry cap urls results today now h ih =>
    exact run_message_inv dry cap urls results _ today now ih.1 ih.2
  | resetStep now h ih =>
    refine ⟨ErrInv_reset ih.1 now, ?_⟩
    rw [UrlNodup, reset_map_url]
    exact ih.2

/-! Claim theorems. -/

/-- C2: for every list of input URLs, import_urls inserts each URL not already
present as a PENDING row, never inserts a duplicate URL twice (url uniqueness
is preserved, so duplicates in the store or within the batch are skipped), and
the returned counts satisfy imported + skipped = total, where total is the
length of the input list.  Every pre-existing row is left in the store. -/
theorem import_urls_correct (store : List Row) (urls : List String) (now : Nat) :
    (import_urls store urls now).imported + (import_urls store urls now).skipped
        = (import_urls store urls now).total ∧
    (import_urls store urls now).total = urls.length ∧
    (∀ u ∈ urls, urlExists store u = false →
      newRow u now ∈ (import_urls store urls now).store) ∧
    (∀ r ∈ store, r ∈ (import_urls store urls now).store) ∧
    (UrlNodup store → UrlNodup (import_urls store urls now).store) := by
  refine ⟨?_, rfl, ?_, ?_, ?_⟩
  · exact importLoop_counts urls store now
  · intro u hu habs
    exact importLoop_inserts urls now u store hu habs
  · intro r hr
    exact importLoop_mem urls now hr
  · intro h
    exact importLoop_nodup urls now store h

/-- Witness for C2 at a concrete batch: importing two fresh URLs and one
in-batch duplicate into the empty store. -/
theorem import_urls_correct_witness :
    (import_urls [] ["a", "b", "a"] 3).imported + (import_urls [] ["a", "b", "a"] 3).skipped
        = (import_urls [] ["a", "b", "a"] 3).total ∧
    newRow "b" 3 ∈ (import_urls [] ["a", "b", "a"] 3).store ∧
    UrlNodup (import_urls [] ["a", "b", "a"] 3).store := by
  have h := import_urls_correct [] ["a", "b", "a"] 3
  exact ⟨h.1, h.2.2.1 "b" (by decide) (by decide), h.2.2.2.2 (by simp [UrlNodup])⟩

/-- C3 counterexample: the claim says update_status on an unknown url fails
with NotFoundError.  In db.py the UPDATE simply matches zero rows and the
function raises nothing: on the empty store the operation completes without
any error and leaves the store unchanged, while the spec-modelled version
demands the error. -/
theorem update_status_unknown_url_no_error :
    update_status [] "https://www.linkedin.com/in/alice" STATUS_REQUEST_SENT none none 5 = [] ∧
    updateStatusSpec [] "https://www.linkedin.com/in/alice" STATUS_REQUEST_SENT none none 5
        = Except.error DbError.notFound := by
  exact ⟨rfl, rfl⟩

/-- C3 (amended): update_status on an absent url raises no error and leaves
the store unchanged; on a present url it always refreshes updated_at along
with the new status, and rows with other urls are untouched. -/
theorem update_status_amended (store : List Row) (url status : String)
    (name emsg : Option String) (now : Nat) :
    ((∀ r ∈ store, r.url ≠ url) → update_status store url status name emsg now = store) ∧
    (∀ r ∈ update_status store url status name emsg now,
      (r.url = url → r.updated_at = now ∧ r.status = status) ∧ (r.url ≠ url → r ∈ store)) := by
  constructor
  · exact update_status_absent store url status name emsg now
  · intro r hr
    constructor
    · intro hu
      rcases mem_update_status hr with ⟨r0, _, _, he⟩ | ⟨_, hne⟩
      · rw [he, applyUpdate_updated_at, applyUpdate_status]
        exact ⟨rfl, rfl⟩
      · exact absurd hu hne
    · intro hne
      rcases mem_update_status hr with ⟨r0, _, hu0, he⟩ | ⟨hmem, _⟩
      · refine absurd ?_ hne
        rw [he, applyUpdate_url]
        exact hu0
      · exact hmem

/-- Witness for C3's amended theorem: a present url gets its status set and
its updated_at refreshed. -/
theorem update_status_amended_witness :
    (⟨"u", none, STATUS_REQUEST_SENT, none, 0, 5⟩ : Row).updated_at = 5 ∧
    (⟨"u", none, STATUS_REQUEST_SENT, none, 0, 5⟩ : Row).status = STATUS_REQUEST_SENT :=
  ((update_status_amended [newRow "u" 0] "u" STATUS_REQUEST_SENT none none 5).2
    ⟨"u", none, STATUS_REQUEST_SENT, none, 0, 5⟩ (by decide)).1 (by decide)

lemma resetRow_status_ne (r : Row) (now : Nat) :
    (resetRow r now).status ≠ STATUS_ERROR := by
  unfold resetRow
  split
  · exact (by decide : STATUS_PENDING ≠ STATUS_ERROR)
  · assumption

lemma resetRow_idem (r : Row) (now now2 : Nat) :
    resetRow (resetRow r now) now2 = resetRow r now := by
  by_cases h : r.status = STATUS_ERROR
  · have e1 : resetRow r now
        = { r with status := STATUS_PENDING, error_msg := none, updated_at := now } := by
      unfold resetRow
      rw [if_pos h]
    rw [e1]
    simp only [resetRow]
    rw [if_neg (by decide : ¬(STATUS_PENDING = STATUS_ERROR))]
  · have e1 : resetRow r now = r := by
      unfold resetRow
      rw [if_neg h]
    have e2 : resetRow r now2 = r := by
      unfold resetRow
      rw [if_neg h]
    rw [e1, e2]

lemma countErrors_eq_zero (l : List Row) (h : ∀ r ∈ l, r.status ≠ STATUS_ERROR) :
    countErrors l = 0 := by
  induction l with
  | nil => rfl
  | cons r rest ih =>
    simp only [countErrors]
    rw [if_neg (h r (List.mem_cons_self r rest)), ih fun x hx => h x (List.mem_cons_of_mem r hx)]

lemma countErrors_eq_filter (l : List Row) :
    countErrors l = (l.filter fun r => decide (r.status = STATUS_ERROR)).length := by
  induction l with
  | nil => rfl
  | cons r rest ih =>
    simp only [countErrors, List.filter_cons]
    by_cases h : r.status = STATUS_ERROR <;> simp [h, ih] <;> omega

/-- C4: reset_errors moves exactly the ERROR rows back to PENDING with their
error message cleared, returns the number of rows affected, leaves every
non-ERROR row untouched, and is idempotent: a second consecutive call returns
0 and changes nothing. -/
theorem reset_errors_correct (store : List Row) (now now2 : Nat) :
    (reset_errors store now).2
        = (store.filter fun r => decide (r.status = STATUS_ERROR)).length ∧
    (∀ r ∈ store, r.status = STATUS_ERROR →
      ({ r with status := STATUS_PENDING, error_msg := none, updated_at := now } : Row)
        ∈ (reset_errors store now).1) ∧
    (∀ r ∈ store, r.status ≠ STATUS_ERROR → r ∈ (reset_errors store now).1) ∧
    reset_errors (reset_errors store now).1 now2 = ((reset_errors store now).1, 0) := by
  refine ⟨countErrors_eq_filter store, ?_, ?_, ?_⟩
  · intro r hr he
    refine List.mem_map.mpr ⟨r, hr, ?_⟩
    unfold resetRow
    rw [if_pos he]
  · intro r hr he
    refine List.mem_map.mpr ⟨r, hr, ?_⟩
    unfold resetRow
    rw [if_neg he]
  · unfold reset_errors
    simp only [List.map_map, Prod.mk.injEq]
    constructor
    · apply List.map_congr_left
      intro r _
      simp only [Function.comp_apply]
      exact resetRow_idem r now now2
    · exact countErrors_eq_zero _ fun x hx => by
        rcases List.mem_map.mp hx with ⟨r, _, he⟩
        exact he ▸ resetRow_status_ne r now

/-- Witness for C4 on the store of the spec's scenario shape: one ERROR row
and one REQUEST_SENT row. -/
theorem reset_errors_correct_witness :
    (⟨"a", none, STATUS_PENDING, none, 0, 7⟩ : Row)
        ∈ (reset_errors [⟨"a", none, STATUS_ERROR, some "x", 0, 0⟩,
            ⟨"b", none, STATUS_REQUEST_SENT, none, 0, 0⟩] 7).1 ∧
    (⟨"b", none, STATUS_REQUEST_SENT, none, 0, 0⟩ : Row)
        ∈ (reset_errors [⟨"a", none, STATUS_ERROR, some "x", 0, 0⟩,
            ⟨"b", none, STATUS_REQUEST_SENT, none, 0, 0⟩] 7).1 ∧
    reset_errors (reset_errors [⟨"a", none, STATUS_ERROR, some "x", 0, 0⟩,
            ⟨"b", none, STATUS_REQUEST_SENT, none, 0, 0⟩] 7).1 9
        = ((reset_errors [⟨"a", none, STATUS_ERROR, some "x", 0, 0⟩,
            ⟨"b", none, STATUS_REQUEST_SENT, none, 0, 0⟩] 7).1, 0) := by
  have h := reset_errors_correct [⟨"a", none, STATUS_ERROR, some "x", 0, 0⟩,
    ⟨"b", none, STATUS_REQUEST_SENT, none, 0, 0⟩] 7 9
  exact ⟨h.2.1 ⟨"a", none, STATUS_ERROR, some "x", 0, 0⟩ (by decide) (by decide),
    h.2.2.1 ⟨"b", none, STATUS_REQUEST_SENT, none, 0, 0⟩ (by decide) (by decide),
    h.2.2.2⟩

/-- C10: for every counter_type other than "connections_sent" and
"messages_sent", both increment_daily_counter and get_daily_count raise
ValueError (modelled as Except.error, raised before any table write, so the
counters are untouched); for a valid counter type on a day with no row yet,
get_daily_count returns 0 and increment_daily_counter first creates the day's
row and then increments it by exactly 1. -/
theorem daily_counter_validation (t : String) (cs : List CounterRow) (today : String) :
    (t ≠ COUNTER_CONNECTIONS ∧ t ≠ COUNTER_MESSAGES →
      increment_daily_counter cs t today = Except.error ("Invalid counter type: " ++ t) ∧
      get_daily_count cs t today = Except.error ("Invalid counter type: " ++ t)) ∧
    (findCounter cs today = none →
      get_daily_count cs COUNTER_CONNECTIONS today = Except.ok 0 ∧
      get_daily_count cs COUNTER_MESSAGES today = Except.ok 0 ∧
      incrementCore cs COUNTER_CONNECTIONS today = cs ++ [⟨today, 1, 0⟩] ∧
      incrementCore cs COUNTER_MESSAGES today = cs ++ [⟨today, 0, 1⟩]) ∧
    increment_daily_counter cs COUNTER_CONNECTIONS today
        = Except.ok (incrementCore cs COUNTER_CONNECTIONS today) ∧
    increment_daily_counter cs COUNTER_MESSAGES today
        = Except.ok (incrementCore cs COUNTER_MESSAGES today) ∧
    selectCount (incrementCore cs COUNTER_CONNECTIONS today) COUNTER_CONNECTIONS today
        = selectCount cs COUNTER_CONNECTIONS today + 1 ∧
    selectCount (incrementCore cs COUNTER_MESSAGES today) COUNTER_MESSAGES today
        = selectCount cs COUNTER_MESSAGES today + 1 := by
  refine ⟨?_, ?_, ?_, ?_, selectCount_incConn cs today, selectCount_incMsg cs today⟩
  · rintro ⟨h1, h2⟩
    have hng : ¬(t = COUNTER_CONNECTIONS ∨ t = COUNTER_MESSAGES) := by
      rintro (h | h)
      · exact h1 h
      · exact h2 h
    constructor
    · unfold increment_daily_counter
      rw [if_neg hng]
    · unfold get_daily_count
      rw [if_neg hng]
  · intro hnone
    have hid := fun ty => map_bump_id cs ty today (findCounter_none_date hnone)
    refine ⟨?_, ?_, ?_, ?_⟩
    · unfold get_daily_count selectCount
      rw [if_pos (Or.inl rfl), hnone]
    · unfold get_daily_count selectCount
      rw [if_pos (Or.inr rfl), hnone]
    · unfold incrementCore ensureDailyRow
      rw [hnone, List.map_append, hid COUNTER_CONNECTIONS]
      simp only [List.map_cons, List.map_nil, if_pos rfl]
      rw [show bump ⟨today, 0, 0⟩ COUNTER_CONNECTIONS = ⟨today, 1, 0⟩ from by
        unfold bump
        rw [if_pos rfl]]
      simp
    · unfold incrementCore ensureDailyRow
      rw [hnone, List.map_append, hid COUNTER_MESSAGES]
      simp only [List.map_cons, List.map_nil, if_pos rfl]
      rw [show bump ⟨today, 0, 0⟩ COUNTER_MESSAGES = ⟨today, 0, 1⟩ from by
        unfold bump
        rw [if_neg (by decide : ¬(COUNTER_MESSAGES = COUNTER_CONNECTIONS)), if_pos rfl]]
      simp
  · unfold increment_daily_counter
    rw [if_pos (Or.inl rfl)]
  · unfold increment_daily_counter
    rw [if_pos (Or.inr rfl)]

/-- Witness for C10: an invalid counter type errors; a valid one on an empty
table reads 0 and creates today's row at 1. -/
theorem daily_counter_validation_witness :
    increment_daily_counter [] "bogus" "2026-10-12"
        = Except.error ("Invalid counter type: " ++ "bogus") ∧
    get_daily_count [] COUNTER_CONNECTIONS "2026-10-12" = Except.ok 0 ∧
    incrementCore [] COUNTER_CONNECTIONS "2026-10-12" = [⟨"2026-10-12", 1, 0⟩] := by
  have h := daily_counter_validation "bogus" [] "2026-10-12"
  refine ⟨(h.1 ⟨by decide, by decide⟩).1, (h.2.1 rfl).1, ?_⟩
  have h3 := (h.2.1 rfl).2.2.1
  simpa using h3

/-- C5: for every personalized connection note longer than 300 characters,
the note handed to the connection modal — in both the live flow
(send_connection_request) and the dry-run flow (dry_run_connection) — is its
first 297 characters followed by "...", hence at most 300 characters; the
truncation is applied to the note before the modal send is attempted; notes
of at most 300 characters pass through unchanged. -/
theorem connection_note_truncation (state : DetectedState) (personalized_note : List Char)
    (click_ok modal_ok : Bool) (n : List Char)
    (hsent : (send_connection_request state personalized_note click_ok modal_ok).note_filled
        = some n) :
    n = truncateNote personalized_note ∧
    (dry_run_connection state personalized_note).2 = truncateNote personalized_note ∧
    n.length ≤ 300 ∧
    (300 < personalized_note.length →
      n = personalized_note.take 297 ++ ['.', '.', '.']) ∧
    (personalized_note.length ≤ 300 → n = personalized_note) := by
  have hn : n = truncateNote personalized_note := by
    cases state <;> simp only [send_connection_request] at hsent
    · split at hsent
      · exact (Option.some.injEq _ _ ▸ hsent).symm
      · cases hsent
    · split at hsent
      · exact (Option.some.injEq _ _ ▸ hsent).symm
      · cases hsent
    · cases hsent
    · cases hsent
    · cases hsent
  subst hn
  refine ⟨rfl, rfl, ?_, ?_, ?_⟩
  · unfold truncateNote
    split
    · rename_i hlen
      rw [List.length_append, List.length_take, min_eq_left (by omega : 297 ≤ personalized_note.length)]
      decide
    · rename_i hlen
      omega
  · intro hlen
    unfold truncateNote
    rw [if_pos hlen]
  · intro hlen
    unfold truncateNote
    rw [if_neg (by omega)]

/-- Witness for C5: a 301-character note is truncated to 297 characters plus
"...", and the result fits in 300 characters. -/
theorem connection_note_truncation_witness :
    (truncateNote (List.replicate 301 'a')).length ≤ 300 ∧
    truncateNote (List.replicate 301 'a')
        = (List.replicate 301 'a').take 297 ++ ['.', '.', '.'] := by
  have h := connection_note_truncation DetectedState.connect_visible
    (List.replicate 301 'a') true true (truncateNote (List.replicate 301 'a')) rfl
  exact ⟨h.2.2.1, h.2.2.2.1 (by simp)⟩

/-- C1: within any connect or message run, the daily counter for a counter
type never exceeds the cap that is_daily_cap_reached compares it against
(DAILY_CONNECTION_CAP = 20 and DAILY_MESSAGE_CAP = 50): the check runs before
every profile, and once it reports the cap reached the loop stops without
starting another action, so from any state within the cap the counter stays
within the cap — a 21st invite is never attempted at cap 20.  The bound holds
at every intermediate point too, since every prefix of the profile list is an
instance of the quantified statement. -/
theorem daily_cap_never_exceeded (dry : Bool) (items : List (String × BotResult))
    (st : RunState) (today : String) (now : Nat) (cap : Int) (urls : List String)
    (results : List BotResult)
    (hc : selectCount st.counters COUNTER_CONNECTIONS today ≤ DAILY_CONNECTION_CAP)
    (hm : selectCount st.counters COUNTER_MESSAGES today ≤ DAILY_MESSAGE_CAP) :
    selectCount (connectLoop dry items st today now).counters COUNTER_CONNECTIONS today
        ≤ DAILY_CONNECTION_CAP ∧
    selectCount (messageLoop dry items st today now).counters COUNTER_MESSAGES today
        ≤ DAILY_MESSAGE_CAP ∧
    (is_daily_cap_reached_conn st.counters today = true →
      connectLoop dry items st today now = st) ∧
    (is_daily_cap_reached_msg st.counters today = true →
      messageLoop dry items st today now = st) ∧
    selectCount (run_connect dry cap urls results st today now).counters
        COUNTER_CONNECTIONS today ≤ DAILY_CONNECTION_CAP ∧
    selectCount (run_message dry cap urls results st today now).counters
        COUNTER_MESSAGES today ≤ DAILY_MESSAGE_CAP := by
  refine ⟨connectLoop_cap dry items st today now hc,
    messageLoop_cap dry items st today now hm,
    connectLoop_capped_stops dry items st today now,
    messageLoop_capped_stops dry items st today now, ?_, ?_⟩
  · simp only [run_connect]
    split
    · exact hc
    · split
      · exact hc
      · split
        · exact hc
        · exact connectLoop_cap _ _ _ _ _ hc
  · simp only [run_message]
    split
    · exact hm
    · split
      · exact hm
      · split
        · exact hm
        · exact messageLoop_cap _ _ _ _ _ hm

/-- Witness for C1: one successful invite from an empty counter table stays
within the cap. -/
theorem daily_cap_never_exceeded_witness :
    selectCount (connectLoop false [("u", BotResult.ok "request_sent" none)]
        ⟨[], []⟩ "2026-10-12" 0).counters COUNTER_CONNECTIONS "2026-10-12"
      ≤ DAILY_CONNECTION_CAP :=
  (daily_cap_never_exceeded false [("u", BotResult.ok "request_sent" none)]
    ⟨[], []⟩ "2026-10-12" 0 0 [] [] (by decide) (by decide)).1

/-- C6 counterexample: the claim says a dry run never mutates the Target
Store (no row inserted).  In main.py the spreadsheet import runs before the
dry_run flag is ever consulted, so a dry run on a fresh url inserts a PENDING
row. -/
theorem dry_run_inserts_rows :
    (run_connect true 0 ["https://www.linkedin.com/in/alice"] [] ⟨[], []⟩
        "2026-10-12" 0).store
      = [newRow "https://www.linkedin.com/in/alice" 0] ∧
    (run_connect true 0 ["https://www.linkedin.com/in/alice"] [] ⟨[], []⟩
        "2026-10-12" 0).store ≠ [] := by
  exact ⟨by decide, by decide⟩

/-- C6 (amended): a dry run never increments any daily counter and never
changes an existing row (no status, name, error message or timestamp change);
the only Target Store mutation it performs is the initial url import, which
inserts new urls as PENDING rows. -/
theorem dry_run_mutates_only_by_import (cap : Int) (urls : List String)
    (results : List BotResult) (st : RunState) (today : String) (now : Nat) :
    (run_connect true cap urls results st today now).counters = st.counters ∧
    (run_message true cap urls results st today now).counters = st.counters ∧
    ((run_connect true cap urls results st today now).store = st.store ∨
      (run_connect true cap urls results st today now).store
        = (import_urls st.store urls now).store) ∧
    ((run_message true cap urls results st today now).store = st.store ∨
      (run_message true cap urls results st today now).store
        = (import_urls st.store urls now).store) ∧
    (∀ r ∈ st.store, r ∈ (run_connect true cap urls results st today now).store) ∧
    (∀ r ∈ st.store, r ∈ (run_message true cap urls results st today now).store) := by
  have hrc : run_connect true cap urls results st today now = st ∨
      run_connect true cap urls results st today now
        = ⟨(import_urls st.store urls now).store, st.counters⟩ := by
    simp only [run_connect]
    split
    · exact Or.inl rfl
    · split
      · exact Or.inr rfl
      · split
        · exact Or.inr rfl
        · rw [connectLoop_dry]
          exact Or.inr rfl
  have hrm : run_message true cap urls results st today now = st ∨
      run_message true cap urls results st today now
        = ⟨(import_urls st.store urls now).store, st.counters⟩ := by
    simp only [run_message]
    split
    · exact Or.inl rfl
    · split
      · exact Or.inr rfl
      · split
        · exact Or.inr rfl
        · rw [messageLoop_dry]
          exact Or.inr rfl
  refine ⟨?_, ?_, ?_, ?_, ?_, ?_⟩
  · rcases hrc with h | h <;> rw [h]
  · rcases hrm with h | h <;> rw [h]
  · rcases hrc with h | h <;> rw [h]
    · exact Or.inl rfl
    · exact Or.inr rfl
  · rcases hrm with h | h <;> rw [h]
    · exact Or.inl rfl
    · exact Or.inr rfl
  · intro r hr
    rcases hrc with h | h <;> rw [h]
    · exact hr
    · exact importLoop_mem urls now hr
  · intro r hr
    rcases hrm with h | h <;> rw [h]
    · exact hr
    · exact importLoop_mem urls now hr

/-- C7: when the platform's rate limit surfaces during an invite (the bot
returns "cap_reached"), the connect loop stops at that target: the final
state is exactly the state reached so far with the current target's status
written back as PENDING (not ERROR), every row with a different url —
including every target not yet visited — is untouched, and the remaining
items are never processed. -/
theorem rate_limit_aborts_run (url : String) (name : Option String)
    (rest : List (String × BotResult)) (st : RunState) (today : String) (now : Nat)
    (hcap : is_daily_cap_reached_conn st.counters today = false) :
    connectLoop false ((url, BotResult.ok "cap_reached" name) :: rest) st today now
        = ⟨update_status st.store url STATUS_PENDING none none now, st.counters⟩ ∧
    (∀ r ∈ st.store, r.url ≠ url →
      r ∈ (connectLoop false ((url, BotResult.ok "cap_reached" name) :: rest)
          st today now).store) ∧
    (∀ r ∈ (connectLoop false ((url, BotResult.ok "cap_reached" name) :: rest)
        st today now).store, r.url = url → r.status = STATUS_PENDING) := by
  have hstep : connectStep false url (BotResult.ok "cap_reached" name) st today now
      = (⟨update_status st.store url STATUS_PENDING none none now, st.counters⟩, true) := by
    simp only [connectStep]
    rw [if_neg (by decide : ¬("cap_reached" = STATUS_REQUEST_SENT)),
      if_neg (by decide : ¬(("cap_reached" : String) = "already_connected")),
      if_neg (by decide : ¬(("cap_reached" : String) = "already_pending")),
      if_neg (by decide : ¬("cap_reached" = STATUS_SKIPPED))]
    simp
  have hloop : connectLoop false ((url, BotResult.ok "cap_reached" name) :: rest) st today now
      = ⟨update_status st.store url STATUS_PENDING none none now, st.counters⟩ := by
    simp only [connectLoop]
    rw [if_neg (by simp [hcap]), hstep, if_pos rfl]
  refine ⟨hloop, ?_, ?_⟩
  · intro r hr hne
    rw [hloop]
    exact mem_update_status_of_ne STATUS_PENDING none none now hr hne
  · intro r hr hu
    rw [hloop] at hr
    rcases mem_update_status hr with ⟨r0, _, _, he⟩ | ⟨_, hne⟩
    · rw [he, applyUpdate_status]
    · exact absurd hu hne

/-- Witness for C7: a rate-limited invite on a one-row store stops the run
with the row set back to PENDING. -/
theorem rate_limit_aborts_run_witness :
    connectLoop false [("u", BotResult.ok "cap_reached" none)]
        ⟨[newRow "u" 0], []⟩ "2026-10-12" 7
      = ⟨update_status [newRow "u" 0] "u" STATUS_PENDING none none 7, []⟩ :=
  (rate_limit_aborts_run "u" none [] ⟨[newRow "u" 0], []⟩ "2026-10-12" 7 (by decide)).1

lemma effective_caps_nonpos {cap : Int} (h : cap ≤ 0) :
    effective_connection_cap cap = DAILY_CONNECTION_CAP ∧
      effective_message_cap cap = DAILY_MESSAGE_CAP := by
  unfold effective_connection_cap effective_message_cap
  rw [if_neg (by omega), if_neg (by omega)]
  exact ⟨rfl, rfl⟩

/-- C8 counterexample: the claim says a cap override that is zero or negative
is surfaced immediately as a ValidationError with no partial run started.  In
main.py `daily_cap = cap if cap > 0 else DAILY_CONNECTION_CAP`: cap = -1 is
silently replaced by the default and the run proceeds, importing the url —
there is no ValidationError anywhere in the repository. -/
theorem cap_override_nonpositive_no_error :
    effective_connection_cap (-1) = DAILY_CONNECTION_CAP ∧
    (run_connect false (-1) ["https://www.linkedin.com/in/bob"] [] ⟨[], []⟩
        "2026-10-12" 0).store
      = [newRow "https://www.linkedin.com/in/bob" 0] := by
  exact ⟨by decide, by decide⟩

/-- C8 (amended): a cap override that is zero or negative is not an error: it
means "use the configured default cap", and the run proceeds exactly as a run
with no override. -/
theorem cap_override_nonpositive_uses_default (cap : Int) (dry : Bool)
    (urls : List String) (results : List BotResult) (st : RunState) (today : String)
    (now : Nat) (h : cap ≤ 0) :
    effective_connection_cap cap = DAILY_CONNECTION_CAP ∧
    effective_message_cap cap = DAILY_MESSAGE_CAP ∧
    run_connect dry cap urls results st today now
        = run_connect dry 0 urls results st today now ∧
    run_message dry cap urls results st today now
        = run_message dry 0 urls results st today now := by
  have h1 := effective_caps_nonpos h
  have h0 := effective_caps_nonpos (le_refl (0 : Int))
  refine ⟨h1.1, h1.2, ?_, ?_⟩
  · simp only [run_connect, h1.1, h0.1]
  · simp only [run_message, h1.2, h0.2]

/-- Witness for C8's amended theorem at cap = -5. -/
theorem cap_override_nonpositive_uses_default_witness :
    effective_connection_cap (-5) = DAILY_CONNECTION_CAP ∧
    run_connect false (-5) ["u"] [] ⟨[], []⟩ "2026-10-12" 0
        = run_connect false 0 ["u"] [] ⟨[], []⟩ "2026-10-12" 0 := by
  have h := cap_override_nonpositive_uses_default (-5) false ["u"] [] ⟨[], []⟩
    "2026-10-12" 0 (by omega)
  exact ⟨h.1, h.2.2.1⟩

/-- C9: in every database state reachable through the core's operations
(import, connect run, message run, error reset, starting from the empty
store), a row's error message is non-null only when the row's status is
ERROR: each operation either clears the message, pairs a written message with
the ERROR status, or leaves a null message null. -/
theorem errmsg_only_when_error (s : RunState) (r : Row) (hs : Reachable s)
    (hr : r ∈ s.store) (hm : r.error_msg ≠ none) : r.status = STATUS_ERROR :=
  (reachable_inv s hs).1 r hr hm

/-- Witness for C9: a connect run from the empty store whose bot reports an
unknown status writes an ERROR row with a message, and the invariant applies
to it. -/
theorem errmsg_only_when_error_witness :
    (⟨"u", none, "error", some "Status: weird", 0, 0⟩ : Row).status = STATUS_ERROR :=
  errmsg_only_when_error
    (run_connect false 0 ["u"] [BotResult.ok "weird" none] ⟨[], []⟩ "2026-10-12" 0)
    ⟨"u", none, "error", some "Status: weird", 0, 0⟩
    (Reachable.connectRun false 0 ["u"] [BotResult.ok "weird" none] "2026-10-12" 0
      Reachable.init)
    (by decide) (by decide)

end LinkedinHelper
